import Mathlib

/-!
Verification development for the outbe transaction-fingerprinting core.

The Rust sources are shallowly embedded: machine integers become `Nat`/`Int`
(with explicit bounds where overflow could matter), `Result`-returning code
becomes `Except`, and Rust panics are modelled as distinguished error values.
The BN254 scalar field `Fr` is `ZMod rBN`.
-/

/-- Order of the BN254 (bn256) scalar field, the modulus of `halo2curves::bn256::Fr`. -/
def rBN : Nat := 21888242871839275222246405745257275088548364400416034343698204186575808495617

/-- The BN254 scalar field `Fr`, as the residue ring modulo `rBN`. -/
abbrev Fr := ZMod rBN

instance : NeZero rBN := ⟨by decide⟩

instance {ε α : Type} [DecidableEq ε] [DecidableEq α] : DecidableEq (Except ε α) := fun a b =>
  match a, b with
  | .ok x, .ok y =>
    if h : x = y then .isTrue (by rw [h]) else .isFalse (fun c => h (Except.ok.inj c))
  | .error x, .error y =>
    if h : x = y then .isTrue (by rw [h]) else .isFalse (fun c => h (Except.error.inj c))
  | .ok _, .error _ => .isFalse (fun c => Except.noConfusion c)
  | .error _, .ok _ => .isFalse (fun c => Except.noConfusion c)

/-! ## Date-time component (`fingerprinting-core/src/components/date_time_raw.rs`) -/

/-- Embeds `DateTimeRaw`.  The source stores `date_time: DateTime<Utc>` (nanosecond
precision), `wwd: NaiveDate` and `amount: (u64, u64)`.  We represent the two dates by
their signed offsets from `EPOCH = 2025-01-01T00:00:00Z`: `dtNanos` is the exact
nanosecond offset of `date_time` (for a `Utc` value, `naive_local()` equals the UTC
naive form, so `naive_local().signed_duration_since(EPOCH)` is exactly this offset),
and `wwdDays` is the exact whole-day offset of `wwd` from `EPOCH.date()`
(a difference of `NaiveDate`s is always a whole number of days). -/
structure DateTimeRaw where
  dtNanos : Int
  wwdDays : Int
  amount : Nat × Nat
deriving DecidableEq

/-- `chrono::TimeDelta::num_seconds` returns the number of whole seconds in a
duration, truncating toward zero; on a duration of `n` nanoseconds that is
`Int.tdiv n 10^9`. -/
def num_seconds (nanos : Int) : Int := Int.tdiv nanos 1000000000

/-- Embeds line 65 of `date_time_raw.rs`:
`let full_amount = amount_base * U256::from(10 ^ 18) + amount_atto;`.
In Rust `^` is bitwise XOR, so the scaling literal is `10 XOR 18`, which we
transcribe as `10 ^^^ 18` (the value is `24`).  With `base, atto < 2^64` the
result is below `2^70`, so the `U256` arithmetic never wraps and plain `Nat`
arithmetic is exact. -/
def full_amount (base atto : Nat) : Nat := base * (10 ^^^ 18) + atto

/-- Embeds `cantor_pair_function` (lines 35-39):
`(x*x + 3*x + 2*x*y + y + y*y) / 2`, with `/` the integer (`U256`) division.
For the arguments produced by `squeeze` (`x < 2^63`, `y < 2^70`) the numerator is
below `2^141`, so `U256` arithmetic never wraps and `Nat` arithmetic is exact. -/
def cantor_pair_function (x y : Nat) : Nat :=
  (x * x + 3 * x + 2 * x * y + y + y * y) / 2

/-- Outcomes of `DateTimeComponent::squeeze` other than success.
`invalidDateTime` is the returned error "Date cannot be earlier than Epoch: 01.01.2025";
`invalidWwd` is the returned error "World Wide Date cannot be earlier than Epoch: 01.01.2025";
`panicDivByZero` models the Rust panic raised by `bigint::U256` division when
`days_since_epoch` is zero (a panic, not a returned error). -/
inductive DTError where
  | invalidDateTime
  | invalidWwd
  | panicDivByZero
deriving DecidableEq

namespace DateTimeComponent

/-- The Cantor-paired `U256` value computed at line 89 of `date_time_raw.rs`:
`cantor_pair_function(seconds_since_epoch, full_amount / days_since_epoch)`.
Only meaningful when the checks of `squeeze` pass (in particular `wwdDays > 0`). -/
def pairedValue (r : DateTimeRaw) : Nat :=
  cantor_pair_function (num_seconds r.dtNanos).toNat
    (full_amount r.amount.1 r.amount.2 / r.wwdDays.toNat)

/-- Embeds `DateTimeComponent::squeeze` (lines 62-105) up to the point where the
three field elements are absorbed into the `SPEC_DC` Poseidon sponge; returns those
three elements `(seconds, days, nonce)` on success.
Mirrors the source order: compute `full_amount`; reject `num_seconds < 0`; reject
`days < 0 ∨ days > u32::MAX`; then `full_amount / days` (a `U256` division that
panics when `days = 0`, modelled by `DTError.panicDivByZero`).
`seconds` and `days` are absorbed via `Fr::from(u64)` (a plain cast: both are
in range), and the nonce via `Fr::from_raw(paired_data.0)`: `paired_data.0` is the
full `[u64; 4]` limb array of the `U256`, so `from_raw` reduces the entire 256-bit
value modulo `rBN`, which is the `Nat` cast into `Fr`. -/
def squeezeData (r : DateTimeRaw) : Except DTError (Fr × Fr × Fr) :=
  let secs := num_seconds r.dtNanos
  if secs < 0 then .error .invalidDateTime
  else if r.wwdDays < 0 ∨ 4294967295 < r.wwdDays then .error .invalidWwd
  else if r.wwdDays.toNat = 0 then .error .panicDivByZero
  else .ok ((secs.toNat : Fr), (r.wwdDays.toNat : Fr), ((pairedValue r : Nat) : Fr))

/-- Embeds the whole of `DateTimeComponent::squeeze`.  The `SPEC_DC` Poseidon
sponge applied to the absorbed triple is passed in as `h3`.
Modelled from the spec: the crates' `spec.rs`, `poseidon.rs` and `grain.rs`
(which fix the concrete round constants) are not under `src/`; per spec section 4.1
the sponge layer has no errors, so it is an arbitrary total function of the three
absorbed elements. -/
def squeeze (h3 : Fr → Fr → Fr → Fr) (r : DateTimeRaw) : Except DTError Fr :=
  (squeezeData r).map (fun t => h3 t.1 t.2.1 t.2.2)

end DateTimeComponent

/-! ## Hash absorption of byte buffers (`fingerprinting-core/src/lib.rs`, lines 77-95) -/

/-- A Rust panic, modelled as a distinguished outcome. -/
inductive Panic where
  | panic
deriving DecidableEq

/-- Embeds lines 85-88 of `lib.rs`: a limb (`chunk`, of `limb_size` bytes, here given
little-endian as a byte list) is copied into the low bytes of a zeroed 32-byte array and
decoded with `Fr::from_bytes` (little-endian, canonical only); on decode failure
`Fr::zero` is substituted (`unwrap_or`).  The value of the padded 32-byte array is
`Nat.ofDigits 256 chunk`. -/
def frFromBytesOrZero (chunk : List Nat) : Fr :=
  if Nat.ofDigits 256 chunk < rBN then ((Nat.ofDigits 256 chunk : Nat) : Fr) else 0

namespace Bytes

/-- Embeds the limb loop of `impl HashSqueeze<Fr> for Bytes` (lines 80-89):
`limb_size = len / 4`; `for offset in (0..len).step_by(limb_size)` reads
`self[offset..offset + limb_size]` into a limb.  Panics are modelled explicitly:
`step_by(0)` panics (when `len < 4`), `buffer_32[0..limb_size]` panics when
`limb_size > 32`, and the slice `self[offset..offset + limb_size]` panics when it
runs past the end of the buffer (which happens exactly when `len` is not a
multiple of `limb_size`).  On success the list of absorbed field elements is
returned, one per offset. -/
def squeezeLimbs (b : List Nat) : Except Panic (List Fr) :=
  let limbSize := b.length / 4
  if limbSize = 0 then .error .panic
  else if 32 < limbSize then .error .panic
  else
    let offsets := (List.range ((b.length + limbSize - 1) / limbSize)).map (· * limbSize)
    if offsets.all (fun o => o + limbSize ≤ b.length) then
      .ok (offsets.map (fun o => frFromBytesOrZero ((b.drop o).take limbSize)))
    else .error .panic

/-- Embeds `Bytes::squeeze` (lines 78-94).  The `SPEC_BIG` Poseidon sponge applied to
the absorbed limbs is passed in as `hashN`.
Modelled from the spec: `poseidon.rs`, `spec.rs` and `grain.rs` are not under `src/`;
per spec section 4.1 the sponge layer has no errors, so it is an arbitrary total
function of the absorbed limbs. -/
def squeeze (hashN : List Fr → Fr) (b : List Nat) : Except Panic Fr :=
  (squeezeLimbs b).map hashN

end Bytes

/-! ## Transaction fingerprint assembly (`fingerprinting-core/src/lib.rs`, lines 128-150 and 192-198) -/

/-- The 8 bytes of a `u64` in big-endian order.
Modelled from the spec: `components/mod.rs` (defining `AmountComponent`) is not under
`src/`; spec section 3 fixes `AmountComponent` as "16 bytes: two u64 big-endian". -/
def u64_be_bytes (n : Nat) : List Nat :=
  (List.range 8).map (fun i => n / 256 ^ (7 - i) % 256)

/-- The 2 bytes of a `u16` in big-endian order.
Modelled from the spec: `components/mod.rs` (defining `CurrencyComponent`) is not under
`src/`; spec section 3 fixes `CurrencyComponent` as "2 bytes: ISO numeric code,
big-endian". -/
def u16_be_bytes (n : Nat) : List Nat := [n / 256 % 256, n % 256]

/-- The `k` bytes of `n` in little-endian order (low byte first). -/
def nat_le_bytes : Nat → Nat → List Nat
  | _, 0 => []
  | n, k + 1 => n % 256 :: nat_le_bytes (n / 256) k

/-- Embeds `Fr::to_bytes`: the canonical 32-byte little-endian encoding of the residue. -/
def Fr.to_bytes (x : Fr) : List Nat := nat_le_bytes x.val 32

/-- Serialized `BankIdentifierComponent` byte image.
Modelled from the spec: `components/mod.rs` is not under `src/`; spec section 3 fixes
`BankIdentifierComponent` as "8 bytes, ASCII verbatim", so the image is the 8 BIC
bytes themselves. -/
def serialize_bic (bic : List Nat) : List Nat := bic

/-- Serialized `AmountComponent` byte image: `base ∥ atto`, each as big-endian u64
(spec section 3). -/
def serialize_amount (base atto : Nat) : List Nat := u64_be_bytes base ++ u64_be_bytes atto

/-- Serialized `CurrencyComponent` byte image: big-endian u16 ISO numeric code
(spec section 3). -/
def serialize_currency (code : Nat) : List Nat := u16_be_bytes code

/-- Serialized `ScalarComponent<Fr, 32>` byte image: the 32 canonical little-endian
bytes of the field element (spec section 3: "a squeezed field element"). -/
def serialize_scalar (x : Fr) : List Nat := Fr.to_bytes x

/-- The serialization prefix written at line 132 of `lib.rs`. -/
def fingerprint_prefix : List Nat := [0xFF, 0xFE, 0xED, 0xDD, 0xCC, 0x00, 0xDD, 0xEE]

/-- Component byte sizes.  Modelled from the spec (section 3): `components/mod.rs`,
which carries the `SIZE` const generics, is not under `src/`. -/
def bank_identifier_component_size : Nat := 8

/-- Spec section 3: `AmountComponent` is 16 bytes. -/
def amount_component_size : Nat := 16

/-- Spec section 3: `CurrencyComponent` is 2 bytes. -/
def currency_component_size : Nat := 2

/-- Spec section 3: `DateTimeComponent` is 32 bytes. -/
def date_time_component_size : Nat := 32

/-- Embeds `TransactionFingerprintData::fingerprint_size` (lines 192-198):
`8 + BankIdentifierComponent::size() + AmountComponent::size() + CurrencyComponent::size()
+ DateTimeComponent::size()`. -/
def fingerprint_size : Nat :=
  8 + bank_identifier_component_size + amount_component_size
    + currency_component_size + date_time_component_size

/-- Embeds the buffer built by `Fingerprint::fingerprint` (lines 128-144): the 8-byte
prefix, then the serialized BIC, amount, currency and date-time components, written in
that order into the writer. -/
def fingerprint_buffer (bic : List Nat) (base atto code : Nat) (dt : Fr) : List Nat :=
  fingerprint_prefix ++ serialize_bic bic ++ serialize_amount base atto
    ++ serialize_currency code ++ serialize_scalar dt

/-! ## Compact base58 form (`fingerprinting-core/src/lib.rs`, lines 153-179) -/

/-- Number of leading zero entries of a list. -/
def leadingZeroCount (l : List Nat) : Nat := (l.takeWhile (· == 0)).length

/-- Embeds `bs58::encode` on a byte array `b` (given most-significant byte first, as the
Rust `&[u8]` is).  A base58 string is represented by its list of digit values under the
bs58 Bitcoin alphabet (the character `1` is the digit `0`).  The encoder emits one `1`
character per leading zero byte, followed by the base-58 digits (most significant first,
no leading zero digit) of the byte array read as a big-endian number. -/
def bs58_encode (b : List Nat) : List Nat :=
  List.replicate (leadingZeroCount b) 0 ++ (Nat.digits 58 (Nat.ofDigits 256 b.reverse)).reverse

/-- Embeds `bs58::decode` on a (valid-alphabet) base58 string, given as its list of
digit values: one zero byte per leading `1` character, followed by the big-endian bytes
of the digit string read as a base-58 number.  Strings containing characters outside
the alphabet fail `bs58::decode` before any length handling and are outside this model. -/
def bs58_decode (ds : List Nat) : List Nat :=
  List.replicate (leadingZeroCount ds) 0 ++ (Nat.digits 256 (Nat.ofDigits 58 ds.reverse)).reverse

/-- Embeds `Fr::from_bytes` on a 32-byte little-endian array: succeeds if and only if
the value is canonical (below the modulus). -/
def Fr.from_bytes (b : List Nat) : Option Fr :=
  if Nat.ofDigits 256 b < rBN then some ((Nat.ofDigits 256 b : Nat) : Fr) else none

/-- Failures of `impl Compact for Fr`: `tooShort` is the `anyhow` error raised when
`first_chunk::<32>` finds fewer than 32 decoded bytes; `notCanonical` the one raised
when `Fr::from_bytes` rejects the 32-byte value. -/
inductive CompactError where
  | tooShort
  | notCanonical
deriving DecidableEq

/-- Embeds `<Fr as Compact>::compact` (lines 166-168): base58-encode the canonical
32-byte encoding `self.to_bytes()`. -/
def Fr.compact (x : Fr) : List Nat := bs58_encode (Fr.to_bytes x)

/-- Embeds `<Fr as Compact>::unwrap` (lines 170-178): base58-decode, take the first
32 bytes with `first_chunk::<32>` (failing when fewer than 32 bytes were decoded,
and silently ignoring any bytes past the first 32), then `Fr::from_bytes`. -/
def Fr.unwrap (ds : List Nat) : Except CompactError Fr :=
  let bytes := bs58_decode ds
  if 32 ≤ bytes.length then
    match Fr.from_bytes (bytes.take 32) with
    | some x => .ok x
    | none => .error .notCanonical
  else .error .tooShort

/-! ## Poseidon permutation (`fingerprinting-poseidon/src/permutation.rs`)

The `State`, constant and matrix operations live in `spec.rs` / `matrix.rs`, which are
not under `src/`; they are modelled from the spec (sections 3 and 4.1): the state is a
vector of `T` field elements, the S-box is `x ↦ x^5`, constants are added element-wise
(or to `state[0]` alone for `add_constant`), and each MDS / pre-sparse / sparse matrix
acts by matrix-vector multiplication. -/

/-- A Poseidon state of width `T`: `State<F, T>` is `[F; T]`. -/
def PState (T : Nat) := Fin T → Fr

instance (T : Nat) : Inhabited (PState T) := ⟨fun _ => 0⟩

/-- `State::sbox_full`: `x ↦ x^5` on every element (spec section 4.1). -/
def sbox_full {T : Nat} (st : PState T) : PState T := fun i => st i ^ 5

/-- `State::sbox_part`: `x ↦ x^5` on `state[0]` only (spec section 4.1, step 4). -/
def sbox_part {T : Nat} [NeZero T] (st : PState T) : PState T :=
  Function.update st 0 (st 0 ^ 5)

/-- `State::add_constants`: element-wise addition of a round-constant vector. -/
def add_constants {T : Nat} (st c : PState T) : PState T := fun i => st i + c i

/-- `State::add_constant`: add a single round constant to `state[0]`
(spec section 4.1, step 4). -/
def add_constant {T : Nat} [NeZero T] (st : PState T) (c : Fr) : PState T :=
  Function.update st 0 (st 0 + c)

/-- A `T × T` matrix over `Fr`, applied by matrix-vector multiplication
(`MDSMatrix::apply`; the sparse matrices are stored in an optimized form but their
`apply` is the same linear action, spec section 4.1). -/
def matApply {T : Nat} (m : Fin T → Fin T → Fr) (st : PState T) : PState T :=
  fun i => ∑ j, m i j * st j

/-- Embeds the `Spec` configuration (spec section 3): full/partial round counts, the
`start` / `partial` / `end` round-constant lists, the MDS matrix, the pre-sparse MDS
and the sparse matrices.  `sConsts`, `pConsts`, `eConsts` are `constants.start`,
`constants.partial`, `constants.end`; `sparseMats` is `mds_matrices.sparse_matrices`. -/
structure PoseidonSpec (T : Nat) where
  r_f : Nat
  r_p : Nat
  sConsts : List (PState T)
  pConsts : List Fr
  eConsts : List (PState T)
  mds : Fin T → Fin T → Fr
  preSparseMds : Fin T → Fin T → Fr
  sparseMats : List (Fin T → Fin T → Fr)

namespace PoseidonSpec

/-- Embeds `Spec::permute` (`permutation.rs`, lines 6-46), following the source's
control flow literally: `r_f = self.r_f / 2`; add `constants.start[0]`; fold the rounds
over `constants.start.iter().skip(1).take(r_f - 1)`; one full S-box, the last `start`
vector and the pre-sparse MDS; fold the partial rounds over
`constants.partial.iter().zip(sparse_matrices.iter())`; fold the end rounds over
`constants.end.iter()`; finish with a full S-box and the MDS.
(`headI` / `getLastI` return a default on an empty list where the source would panic;
the well-formedness hypotheses of the theorems rule that case out.) -/
def permute {T : Nat} [NeZero T] (sp : PoseidonSpec T) (st : PState T) : PState T :=
  let r_f := sp.r_f / 2
  let st1 := add_constants st sp.sConsts.headI
  let st2 := ((sp.sConsts.drop 1).take (r_f - 1)).foldl
    (fun s c => matApply sp.mds (add_constants (sbox_full s) c)) st1
  let st3 := matApply sp.preSparseMds (add_constants (sbox_full st2) sp.sConsts.getLastI)
  let st4 := (sp.pConsts.zip sp.sparseMats).foldl
    (fun s cm => matApply cm.2 (add_constant (sbox_part s) cm.1)) st3
  let st5 := sp.eConsts.foldl
    (fun s c => matApply sp.mds (add_constants (sbox_full s) c)) st4
  matApply sp.mds (sbox_full st5)

/-- The permutation as the spec describes it (section 4.1, steps 1-5), indexing the
round-constant and sparse-matrix tables by round number: add `start[0]`; for each of
the first `r_f/2 - 1` rounds, full S-box, the next start vector, full MDS; full S-box,
the last start vector (`start[r_f/2]`), pre-sparse MDS; for each of the `r_p` partial
rounds `j`, S-box and constant `partial[j]` on `state[0]` only, then sparse matrix
`j`; the symmetric `r_f/2 - 1` end rounds; one extra full S-box and one final MDS. -/
def spec_permute {T : Nat} [NeZero T] (sp : PoseidonSpec T) (st : PState T) : PState T :=
  let half := sp.r_f / 2
  let st1 := add_constants st (sp.sConsts.getD 0 default)
  let st2 := (List.range (half - 1)).foldl
    (fun s i => matApply sp.mds (add_constants (sbox_full s) (sp.sConsts.getD (i + 1) default))) st1
  let st3 := matApply sp.preSparseMds
    (add_constants (sbox_full st2) (sp.sConsts.getD half default))
  let st4 := (List.range sp.r_p).foldl
    (fun s j => matApply (sp.sparseMats.getD j (fun _ _ => 0))
      (add_constant (sbox_part s) (sp.pConsts.getD j 0))) st3
  let st5 := (List.range (half - 1)).foldl
    (fun s i => matApply sp.mds (add_constants (sbox_full s) (sp.eConsts.getD i default))) st4
  matApply sp.mds (sbox_full st5)

/-- Shape of a generated `Spec` (spec sections 3 and 4.1): `r_f/2 + 1` start-constant
vectors, `r_p` partial round constants and sparse matrices, and `r_f/2 - 1`
end-constant vectors. -/
def wellFormed {T : Nat} (sp : PoseidonSpec T) : Prop :=
  sp.sConsts.length = sp.r_f / 2 + 1 ∧ sp.pConsts.length = sp.r_p
    ∧ sp.sparseMats.length = sp.r_p ∧ sp.eConsts.length = sp.r_f / 2 - 1

end PoseidonSpec

/-! ## Transaction data accessors (`fingerprinting-core/src/lib.rs`, lines 181-238) -/

/-- Embeds the `TransactionFingerprintData` struct: the four typed components, carried
here as their raw values (BIC bytes, `(base, atto)` amount, ISO numeric currency code,
and the raw date-time data). -/
structure TransactionFingerprintData where
  bic : List Nat
  amount : Nat × Nat
  currency : Nat
  date_time : DateTimeRaw

/-- Embeds the public accessor `TransactionFingerprintData::date_time` (lines 231-233),
whose body is `unimplemented!()`: calling it panics unconditionally, so it never
produces a reference to a `DateTime<Utc>`.  The would-be result is modelled as the
nanosecond offset of the instant from EPOCH. -/
def TransactionFingerprintData.date_time_accessor
    (_ : TransactionFingerprintData) : Except Panic Int :=
  .error .panic

/-- A small concrete well-formed Poseidon configuration (width 2, `r_f = 4`, `r_p = 1`)
used to evaluate the permutation theorems on an explicit input. -/
def examplePoseidonSpec : PoseidonSpec 2 where
  r_f := 4
  r_p := 1
  sConsts := [![1, 2], ![3, 4], ![5, 6]]
  pConsts := [7]
  eConsts := [![8, 9]]
  mds := ![![1, 1], ![1, 2]]
  preSparseMds := ![![2, 1], ![1, 1]]
  sparseMats := [![![1, 0], ![3, 1]]]

/-- A concrete width-2 state for evaluating the permutation theorems. -/
def examplePoseidonState : PState 2 := ![10, 20]

/-! ## Theorems -/

theorem nat_le_bytes_length (n k : Nat) : (nat_le_bytes n k).length = k := by
  induction k generalizing n with
  | zero => rfl
  | succ k ih => simp [nat_le_bytes, ih]

/-- C1: the claim states that the date-time squeeze scales the base amount by
`10^18 = 1000000000000000000`.  It does not: the source expression `10 ^ 18` is Rust
bitwise XOR, so `full_amount 1 0 = 24`, and on the valid input
`(date_time = EPOCH, wwd = EPOCH + 1 day, amount = (1, 0))` the nonce absorbed by
`squeezeData` is built from `full_amount = 24`, which differs from the element the
`10^18` scaling would give. -/
theorem c1_counterexample :
    DateTimeComponent.squeezeData ⟨0, 1, (1, 0)⟩
      = .ok (0, 1, ((DateTimeComponent.pairedValue ⟨0, 1, (1, 0)⟩ : Nat) : Fr))
    ∧ DateTimeComponent.pairedValue ⟨0, 1, (1, 0)⟩ = cantor_pair_function 0 (full_amount 1 0)
    ∧ full_amount 1 0 = 24
    ∧ full_amount 1 0 ≠ 1 * 10 ^ 18 + 0
    ∧ ((cantor_pair_function 0 (full_amount 1 0) : Nat) : Fr)
      ≠ ((cantor_pair_function 0 (1 * 10 ^ 18 + 0) : Nat) : Fr) := by
  decide

/-- C1 (amended): for every `DateTimeRaw` passing the date range checks (with a
positive day count, without which the squeeze panics), `squeezeData` computes
`full_amount` as `base * 24 + atto` — `24` being the value of the source literal
`10 ^ 18`, which is bitwise XOR in Rust — and absorbs
`(seconds, days, CantorPair(seconds, full_amount / days) mod rBN)`. -/
theorem c1_amended_scaling (r : DateTimeRaw)
    (hs : 0 ≤ num_seconds r.dtNanos) (hd : 0 < r.wwdDays) (hdM : r.wwdDays ≤ 4294967295) :
    DateTimeComponent.squeezeData r
      = .ok (((num_seconds r.dtNanos).toNat : Fr), (r.wwdDays.toNat : Fr),
          ((cantor_pair_function (num_seconds r.dtNanos).toNat
            ((r.amount.1 * 24 + r.amount.2) / r.wwdDays.toNat) : Nat) : Fr)) := by
  simp only [DateTimeComponent.squeezeData, DateTimeComponent.pairedValue]
  rw [if_neg (by omega), if_neg (by omega), if_neg (by omega)]
  rfl

/-- Witness for C1 (amended) at `(dtNanos, wwdDays, amount) = (0, 1, (2, 3))`. -/
theorem c1_amended_scaling_witness :
    DateTimeComponent.squeezeData ⟨0, 1, (2, 3)⟩
      = .ok (((num_seconds 0).toNat : Fr), (((1 : Int).toNat : Nat) : Fr),
          ((cantor_pair_function (num_seconds 0).toNat
            ((2 * 24 + 3) / (1 : Int).toNat) : Nat) : Fr)) :=
  c1_amended_scaling ⟨0, 1, (2, 3)⟩ (by decide) (by decide) (by decide)

/-- C2: the claim states that `Bytes::squeeze` on a buffer of the 66-byte fingerprint
size returns a field element without panicking, absorbing exactly four 16-byte limbs.
The code instead panics: with `limb_size = 66 / 4 = 16` the offset iterator
`(0..66).step_by(16)` yields a fifth offset `64`, and `self[64..80]` is out of bounds
for a 66-byte buffer.  Evaluated here on the all-zero 66-byte buffer, for any sponge. -/
theorem c2_squeeze_panics_on_fingerprint_buffer (hashN : List Fr → Fr) :
    (List.replicate 66 (0 : Nat)).length = fingerprint_size
    ∧ Bytes.squeeze hashN (List.replicate 66 0) = .error Panic.panic :=
  ⟨rfl, rfl⟩

/-- C3: on `wwd = EPOCH.date` (zero days since epoch) with `date_time = EPOCH` and
`amount = (0, 0)`, the date range checks pass and `DateTimeComponent::squeeze` reaches
the `U256` division `full_amount / days_since_epoch` with `days = 0`, which panics; it
does not return the `InvalidDate`-style errors the claim requires. -/
theorem c3_wwd_epoch_div_by_zero_panics :
    DateTimeComponent.squeeze (fun a b c => a + b + c) ⟨0, 0, (0, 0)⟩
      = .error DTError.panicDivByZero
    ∧ DTError.panicDivByZero ≠ DTError.invalidDateTime
    ∧ DTError.panicDivByZero ≠ DTError.invalidWwd := by
  decide

/-- C4: the claim states that the nonce absorbed into `SPEC_DC` depends only on the low
64 bits of the Cantor-paired `U256`.  It does not: `Fr::from_raw(paired_data.0)` takes
the full `[u64; 4]` limb array.  The two valid inputs below (equal seconds and days)
have Cantor-pair values `0` and `2^64 + 2^129`, which agree in the low 64 bits, yet
their absorbed nonce elements differ. -/
theorem c4_counterexample :
    DateTimeComponent.squeezeData ⟨0, 1, (0, 0)⟩
      = .ok (0, 1, ((DateTimeComponent.pairedValue ⟨0, 1, (0, 0)⟩ : Nat) : Fr))
    ∧ DateTimeComponent.squeezeData ⟨0, 1, (1537228672809129301, 8)⟩
      = .ok (0, 1, ((DateTimeComponent.pairedValue ⟨0, 1, (1537228672809129301, 8)⟩ : Nat) : Fr))
    ∧ DateTimeComponent.pairedValue ⟨0, 1, (0, 0)⟩ % 2 ^ 64
      = DateTimeComponent.pairedValue ⟨0, 1, (1537228672809129301, 8)⟩ % 2 ^ 64
    ∧ ((DateTimeComponent.pairedValue ⟨0, 1, (0, 0)⟩ : Nat) : Fr)
      ≠ ((DateTimeComponent.pairedValue ⟨0, 1, (1537228672809129301, 8)⟩ : Nat) : Fr) := by
  decide

/-- C4 (amended): for every `DateTimeRaw` passing the date range checks (with positive
days), the nonce absorbed into `SPEC_DC` is the full 256-bit Cantor-paired value
reduced modulo the field order (`Fr::from_raw` on the whole `[u64; 4]` limb array),
not a function of its low 64 bits alone. -/
theorem c4_amended_nonce_full_width (r : DateTimeRaw)
    (hs : 0 ≤ num_seconds r.dtNanos) (hd : 0 < r.wwdDays) (hdM : r.wwdDays ≤ 4294967295) :
    DateTimeComponent.squeezeData r
      = .ok (((num_seconds r.dtNanos).toNat : Fr), (r.wwdDays.toNat : Fr),
          ((DateTimeComponent.pairedValue r : Nat) : Fr)) := by
  simp only [DateTimeComponent.squeezeData]
  rw [if_neg (by omega), if_neg (by omega), if_neg (by omega)]

/-- Witness for C4 (amended) at `(dtNanos, wwdDays, amount) = (0, 2, (1, 1))`. -/
theorem c4_amended_nonce_full_width_witness :
    DateTimeComponent.squeezeData ⟨0, 2, (1, 1)⟩
      = .ok (((num_seconds 0).toNat : Fr), (((2 : Int).toNat : Nat) : Fr),
          ((DateTimeComponent.pairedValue ⟨0, 2, (1, 1)⟩ : Nat) : Fr)) :=
  c4_amended_nonce_full_width ⟨0, 2, (1, 1)⟩ (by decide) (by decide) (by decide)

/-- C7: the claim states that `squeeze` errors for every `date_time` earlier than
EPOCH.  It does not: `chrono::num_seconds` truncates toward zero, so an instant half a
second before EPOCH yields `seconds_since_epoch = 0`, passes the check, and the squeeze
succeeds. -/
theorem c7_counterexample :
    (DateTimeRaw.mk (-500000000) 1 (0, 0)).dtNanos < 0
    ∧ DateTimeComponent.squeeze (fun a b c => a + b + c) (DateTimeRaw.mk (-500000000) 1 (0, 0))
      = .ok 1 := by
  decide

/-- C7 (amended): `DateTimeComponent::squeeze` returns an error for every `DateTimeRaw`
whose `date_time` is at least one whole second earlier than EPOCH (truncated seconds
negative), and for every one whose `wwd` is earlier than EPOCH's date or more than
`u32::MAX` days after it — for any sponge function. -/
theorem c7_amended_rejections (h3 : Fr → Fr → Fr → Fr) (r : DateTimeRaw)
    (h : num_seconds r.dtNanos < 0 ∨ r.wwdDays < 0 ∨ 4294967295 < r.wwdDays) :
    DateTimeComponent.squeeze h3 r = .error DTError.invalidDateTime
    ∨ DateTimeComponent.squeeze h3 r = .error DTError.invalidWwd := by
  simp only [DateTimeComponent.squeeze, DateTimeComponent.squeezeData]
  by_cases h1 : num_seconds r.dtNanos < 0
  · left
    rw [if_pos h1]
    rfl
  · right
    rw [if_neg h1, if_pos (by omega)]
    rfl

/-- Witness for C7 (amended) at an instant one second before EPOCH. -/
theorem c7_amended_rejections_witness :
    DateTimeComponent.squeeze (fun a b c => a + b + c) ⟨-1000000000, 1, (0, 0)⟩
      = .error DTError.invalidDateTime
    ∨ DateTimeComponent.squeeze (fun a b c => a + b + c) ⟨-1000000000, 1, (0, 0)⟩
      = .error DTError.invalidWwd :=
  c7_amended_rejections (fun a b c => a + b + c) ⟨-1000000000, 1, (0, 0)⟩ (by decide)

/-- C10: the public accessor `TransactionFingerprintData::date_time` is
`unimplemented!()`: for every value it panics unconditionally and never returns. -/
theorem c10_date_time_accessor_never_returns (td : TransactionFingerprintData) :
    td.date_time_accessor = .error Panic.panic
    ∧ ∀ v : Int, td.date_time_accessor ≠ .ok v :=
  ⟨rfl, fun _ h => Except.noConfusion h⟩

/-- C5: the fingerprint assembly writes the 8 prefix bytes
`FF FE ED DD CC 00 DD EE`, then the BIC image, the amount image, the currency image
and the 32-byte date-time field element, in exactly that order; each component image
has its declared size and `fingerprint_size() = 66`. -/
theorem c5_buffer_layout (bic : List Nat) (h : bic.length = 8) (base atto code : Nat)
    (dt : Fr) :
    fingerprint_buffer bic base atto code dt
      = [0xFF, 0xFE, 0xED, 0xDD, 0xCC, 0x00, 0xDD, 0xEE] ++ serialize_bic bic
        ++ serialize_amount base atto ++ serialize_currency code ++ serialize_scalar dt
    ∧ (serialize_bic bic).length = bank_identifier_component_size
    ∧ (serialize_amount base atto).length = amount_component_size
    ∧ (serialize_currency code).length = currency_component_size
    ∧ (serialize_scalar dt).length = date_time_component_size
    ∧ (fingerprint_buffer bic base atto code dt).length = fingerprint_size
    ∧ fingerprint_size = 66 := by
  refine ⟨rfl, h, ?_, rfl, ?_, ?_, rfl⟩
  · simp [serialize_amount, u64_be_bytes, amount_component_size]
  · simp [serialize_scalar, Fr.to_bytes, nat_le_bytes_length, date_time_component_size]
  · simp [fingerprint_buffer, fingerprint_prefix, serialize_bic, serialize_amount,
      u64_be_bytes, serialize_currency, u16_be_bytes, serialize_scalar, Fr.to_bytes,
      nat_le_bytes_length, h, fingerprint_size, bank_identifier_component_size,
      amount_component_size, currency_component_size, date_time_component_size]

/-- Witness for C5 at the BIC "BCEELU21" (ASCII), amount `(1000, 0)`, currency 978
and date-time element `0`. -/
theorem c5_buffer_layout_witness :
    (fingerprint_buffer [66, 67, 69, 69, 76, 85, 50, 49] 1000 0 978 0).length
      = fingerprint_size
    ∧ fingerprint_size = 66 :=
  ⟨(c5_buffer_layout [66, 67, 69, 69, 76, 85, 50, 49] rfl 1000 0 978 0).2.2.2.2.2.1,
    (c5_buffer_layout [66, 67, 69, 69, 76, 85, 50, 49] rfl 1000 0 978 0).2.2.2.2.2.2⟩

theorem foldl_range_getD_succ {α β : Type} (f : β → α → β) (l : List α) (d : α) (n : Nat)
    (h : n + 1 ≤ l.length) (st : β) :
    (List.range n).foldl (fun s i => f s (l.getD (i + 1) d)) st
      = ((l.drop 1).take n).foldl f st := by
  have hmap : (List.range n).map (fun i => l.getD (i + 1) d) = (l.drop 1).take n := by
    apply List.ext_getElem
    · simp
      omega
    · intro i h1 h2
      simp only [List.getElem_map, List.getElem_range, List.getElem_take, List.getElem_drop]
      rw [List.getD_eq_getElem l d (by simp at h1; omega)]
      simp [Nat.add_comm]
  conv_rhs => rw [← hmap]
  rw [List.foldl_map]

theorem foldl_range_getD_self {α β : Type} (f : β → α → β) (l : List α) (d : α) (n : Nat)
    (h : l.length = n) (st : β) :
    (List.range n).foldl (fun s i => f s (l.getD i d)) st = l.foldl f st := by
  have hmap : (List.range n).map (fun i => l.getD i d) = l := by
    apply List.ext_getElem
    · simp [h]
    · intro i h1 h2
      simp only [List.getElem_map, List.getElem_range]
      exact List.getD_eq_getElem l d (by omega)
  conv_rhs => rw [← hmap]
  rw [List.foldl_map]

theorem foldl_range_getD_zip {α γ β : Type} (g : β → α → γ → β) (l1 : List α) (l2 : List γ)
    (d1 : α) (d2 : γ) (n : Nat) (h1 : l1.length = n) (h2 : l2.length = n) (st : β) :
    (List.range n).foldl (fun s j => g s (l1.getD j d1) (l2.getD j d2)) st
      = (l1.zip l2).foldl (fun s p => g s p.1 p.2) st := by
  have hmap : (List.range n).map (fun j => (l1.getD j d1, l2.getD j d2)) = l1.zip l2 := by
    apply List.ext_getElem
    · simp [h1, h2]
    · intro i hi1 hi2
      simp only [List.length_map, List.length_range] at hi1
      simp only [List.getElem_map, List.getElem_range, List.getElem_zip]
      rw [List.getD_eq_getElem l1 d1 (by omega), List.getD_eq_getElem l2 d2 (by omega)]
  conv_rhs => rw [← hmap]
  rw [List.foldl_map]

theorem headI_eq_getD {α : Type} {l : List α} [Inhabited α] (h : l ≠ []) :
    l.headI = l.getD 0 default := by
  cases l with
  | nil => exact absurd rfl h
  | cons a t => rfl

theorem getLastI_eq_getD {α : Type} {l : List α} [Inhabited α] (n : Nat)
    (h : l.length = n + 1) : l.getLastI = l.getD n default := by
  rw [List.getLastI_eq_getLast?, List.getLast?_eq_getElem?, h]
  simp only [Nat.add_sub_cancel]
  rw [List.getD_eq_getElem l default (by omega), List.getElem?_eq_getElem (by omega)]

/-- C6: for every spec of the generated shape and every state, `Spec::permute` realizes
exactly the round schedule the spec describes: `start[0]`; `r_f/2 - 1` full rounds with
the next start vectors and the MDS; a full S-box, the last start vector and the
pre-sparse MDS; `r_p` partial rounds, each applying the S-box and the `j`-th partial
constant to `state[0]` alone and then the `j`-th sparse matrix; the `r_f/2 - 1`
symmetric end rounds; one extra full S-box and one final MDS application. -/
theorem c6_permute_round_schedule {T : Nat} [NeZero T] (sp : PoseidonSpec T)
    (st : PState T) (h : sp.wellFormed) : sp.permute st = sp.spec_permute st := by
  obtain ⟨hs, hp, hm, he⟩ := h
  have hne : sp.sConsts ≠ [] := by
    intro hnil
    rw [hnil] at hs
    simp at hs
  have e0 : sp.sConsts.headI = sp.sConsts.getD 0 default := headI_eq_getD hne
  have eL : sp.sConsts.getLastI = sp.sConsts.getD (sp.r_f / 2) default :=
    getLastI_eq_getD (sp.r_f / 2) hs
  simp only [PoseidonSpec.permute, PoseidonSpec.spec_permute]
  refine congrArg (fun s => matApply sp.mds (sbox_full s)) ?_
  refine Eq.trans
    (congrArg (fun x => List.foldl
      (fun s c => matApply sp.mds (add_constants (sbox_full s) c)) x sp.eConsts) ?_)
    (foldl_range_getD_self
      (fun s c => matApply sp.mds (add_constants (sbox_full s) c))
      sp.eConsts default (sp.r_f / 2 - 1) he _).symm
  refine Eq.trans
    (congrArg (fun x => List.foldl
      (fun s cm => matApply cm.2 (add_constant (sbox_part s) cm.1)) x
      (sp.pConsts.zip sp.sparseMats)) ?_)
    (foldl_range_getD_zip
      (fun s c m => matApply m (add_constant (sbox_part s) c))
      sp.pConsts sp.sparseMats 0 (fun _ _ => 0) sp.r_p hp hm _).symm
  rw [eL]
  refine congrArg (fun s => matApply sp.preSparseMds
    (add_constants (sbox_full s) (sp.sConsts.getD (sp.r_f / 2) default))) ?_
  refine Eq.trans
    (congrArg (fun x => List.foldl
      (fun s c => matApply sp.mds (add_constants (sbox_full s) c)) x
      ((sp.sConsts.drop 1).take (sp.r_f / 2 - 1))) ?_)
    (foldl_range_getD_succ
      (fun s c => matApply sp.mds (add_constants (sbox_full s) c))
      sp.sConsts default (sp.r_f / 2 - 1) (by omega) _).symm
  rw [e0]

/-- Witness for C6 on the concrete width-2 configuration and state. -/
theorem c6_permute_round_schedule_witness :
    examplePoseidonSpec.permute examplePoseidonState
      = examplePoseidonSpec.spec_permute examplePoseidonState :=
  c6_permute_round_schedule examplePoseidonSpec examplePoseidonState
    ⟨rfl, rfl, rfl, rfl⟩

theorem ofDigits_replicate_zero (b z : Nat) : Nat.ofDigits b (List.replicate z 0) = 0 := by
  induction z with
  | zero => rfl
  | succ z ih => simp [List.replicate_succ, Nat.ofDigits_cons, ih]

theorem nat_le_bytes_lt (n k : Nat) : ∀ x ∈ nat_le_bytes n k, x < 256 := by
  induction k generalizing n with
  | zero =>
    intro x hx
    simp [nat_le_bytes] at hx
  | succ k ih =>
    intro x hx
    simp only [nat_le_bytes, List.mem_cons] at hx
    rcases hx with h | h
    · subst h
      exact Nat.mod_lt _ (by omega)
    · exact ih _ x h

theorem ofDigits_nat_le_bytes (k n : Nat) (h : n < 256 ^ k) :
    Nat.ofDigits 256 (nat_le_bytes n k) = n := by
  induction k generalizing n with
  | zero =>
    have hn : n = 0 := by simpa using h
    simp [nat_le_bytes, hn]
  | succ k ih =>
    simp only [nat_le_bytes, Nat.ofDigits_cons]
    rw [ih (n / 256) ((Nat.div_lt_iff_lt_mul (by omega)).mpr (by
      calc n < 256 ^ (k + 1) := h
        _ = 256 ^ k * 256 := by ring))]
    exact Nat.mod_add_div n 256

theorem takeWhile_eq_replicate_lzc (l : List Nat) :
    l.takeWhile (fun y => y == 0) = List.replicate (leadingZeroCount l) 0 := by
  apply List.eq_replicate_iff.mpr
  refine ⟨rfl, ?_⟩
  intro x hx
  simpa using List.mem_takeWhile_imp hx

theorem dropWhile_head_ne_zero (l : List Nat) (h : l.dropWhile (fun y => y == 0) ≠ []) :
    (l.dropWhile (fun y => y == 0)).head h ≠ 0 := by
  simpa using List.head_dropWhile_not (fun y => y == 0) l h

theorem lzc_append_of_head_ne (z : Nat) (l : List Nat)
    (hl : ∀ (h : l ≠ []), l.head h ≠ 0) :
    leadingZeroCount (List.replicate z 0 ++ l) = z := by
  induction z with
  | zero =>
    simp only [List.replicate, List.nil_append]
    cases l with
    | nil => rfl
    | cons a t =>
      have ha : a ≠ 0 := by simpa using hl (by simp)
      simp [leadingZeroCount, List.takeWhile_cons, ha]
  | succ z ih =>
    rw [List.replicate_succ, List.cons_append]
    simp only [leadingZeroCount, List.takeWhile_cons] at ih ⊢
    simpa using ih

theorem ofDigits_reverse_pos (b : Nat) (hb : 0 < b) (l : List Nat) (hne : l ≠ [])
    (hh : l.head hne ≠ 0) : Nat.ofDigits b l.reverse ≠ 0 := by
  cases l with
  | nil => exact absurd rfl hne
  | cons a t =>
    simp only [List.head_cons] at hh
    rw [List.reverse_cons, Nat.ofDigits_append, Nat.ofDigits_singleton]
    have hpos : 0 < b ^ t.reverse.length * a :=
      Nat.mul_pos (Nat.pos_pow_of_pos _ hb) (Nat.pos_of_ne_zero hh)
    omega

theorem bs58_decode_encode_split (z : Nat) (t : List Nat)
    (hthead : ∀ (h : t ≠ []), t.head h ≠ 0) (ht256 : ∀ x ∈ t, x < 256) :
    bs58_decode (bs58_encode (List.replicate z 0 ++ t)) = List.replicate z 0 ++ t := by
  have hval : Nat.ofDigits 256 (List.replicate z 0 ++ t).reverse
      = Nat.ofDigits 256 t.reverse := by
    rw [List.reverse_append, Nat.ofDigits_append, List.reverse_replicate,
      ofDigits_replicate_zero]
    simp
  by_cases hte : t = []
  · subst hte
    have hlz : leadingZeroCount (List.replicate z 0) = z := by
      simpa using lzc_append_of_head_ne z [] (fun h => absurd rfl h)
    have hofd : Nat.ofDigits 256 (List.replicate z 0).reverse = 0 := by
      rw [List.reverse_replicate, ofDigits_replicate_zero]
    have hofd58 : Nat.ofDigits 58 (List.replicate z 0).reverse = 0 := by
      rw [List.reverse_replicate, ofDigits_replicate_zero]
    simp only [List.append_nil]
    simp only [bs58_encode, bs58_decode, hofd, Nat.digits_zero, List.reverse_nil,
      List.append_nil, hlz, hofd58]
  · have hv : Nat.ofDigits 256 t.reverse ≠ 0 :=
      ofDigits_reverse_pos 256 (by norm_num) t hte (hthead hte)
    have hrevhead : ∀ (h : (Nat.digits 58 (Nat.ofDigits 256 t.reverse)).reverse ≠ []),
        (Nat.digits 58 (Nat.ofDigits 256 t.reverse)).reverse.head h ≠ 0 := by
      intro h
      rw [List.head_reverse]
      exact Nat.getLast_digit_ne_zero 58 hv
    have hlzb : leadingZeroCount (List.replicate z 0 ++ t) = z :=
      lzc_append_of_head_ne z t hthead
    simp only [bs58_encode, bs58_decode, hval, hlzb]
    rw [lzc_append_of_head_ne z ((Nat.digits 58 (Nat.ofDigits 256 t.reverse)).reverse)
      hrevhead]
    rw [List.reverse_append, List.reverse_replicate, List.reverse_reverse,
      Nat.ofDigits_append, ofDigits_replicate_zero, Nat.ofDigits_digits]
    simp only [Nat.mul_zero, Nat.add_zero]
    rw [Nat.digits_ofDigits 256 (by norm_num) t.reverse
      (fun x hx => ht256 x (List.mem_reverse.mp hx))
      (fun h => by rw [List.getLast_reverse]; exact hthead hte)]
    rw [List.reverse_reverse]

theorem bs58_decode_encode (b : List Nat) (hb : ∀ x ∈ b, x < 256) :
    bs58_decode (bs58_encode b) = b := by
  have hbt : List.replicate (leadingZeroCount b) 0 ++ b.dropWhile (fun y => y == 0) = b := by
    rw [← takeWhile_eq_replicate_lzc]
    exact List.takeWhile_append_dropWhile _ _
  conv_lhs => rw [← hbt]
  conv_rhs => rw [← hbt]
  exact bs58_decode_encode_split (leadingZeroCount b) (b.dropWhile (fun y => y == 0))
    (fun h => dropWhile_head_ne_zero b h)
    (fun x hx => hb x (by
      have hm : x ∈ b.takeWhile (fun y => y == 0) ++ b.dropWhile (fun y => y == 0) :=
        List.mem_append_right _ hx
      rwa [List.takeWhile_append_dropWhile] at hm))

/-- C8: the compact round-trip identity: for every BN254 scalar `x`,
`Compact::unwrap(x.compact())` succeeds and returns `x` — the base58 decode inverts the
encode on the canonical 32-byte array, `first_chunk::<32>` returns exactly those bytes,
and `Fr::from_bytes` accepts the canonical value. -/
theorem c8_compact_roundtrip (x : Fr) : Fr.unwrap (Fr.compact x) = .ok x := by
  have hlt : ∀ y ∈ Fr.to_bytes x, y < 256 := nat_le_bytes_lt x.val 32
  have hrt : bs58_decode (bs58_encode (Fr.to_bytes x)) = Fr.to_bytes x :=
    bs58_decode_encode _ hlt
  have hlen : (Fr.to_bytes x).length = 32 := nat_le_bytes_length x.val 32
  have hvlt : x.val < rBN := ZMod.val_lt x
  have hofd : Nat.ofDigits 256 (Fr.to_bytes x) = x.val :=
    ofDigits_nat_le_bytes 32 x.val (lt_trans hvlt (by decide))
  simp only [Fr.unwrap, Fr.compact]
  rw [hrt, if_pos (by omega)]
  rw [show (Fr.to_bytes x).take 32 = Fr.to_bytes x from by rw [← hlen]; exact List.take_length _]
  simp only [Fr.from_bytes]
  rw [hofd, if_pos hvlt]
  rw [ZMod.natCast_rightInverse x]

/-- C9: the claim states that `unwrap` fails for every base58 string decoding to more
than 32 bytes.  It does not: `first_chunk::<32>` succeeds whenever at least 32 bytes
were decoded, keeping only the first 32.  The string of 33 `1` characters decodes to
33 zero bytes, and `unwrap` returns `Fr::zero` instead of failing. -/
theorem c9_counterexample :
    (bs58_decode (List.replicate 33 0)).length = 33
    ∧ (33 : Nat) ≠ 32
    ∧ Fr.unwrap (List.replicate 33 0) = .ok 0 := by
  have h1 : bs58_decode (List.replicate 33 0) = List.replicate 33 0 := by
    simp only [bs58_decode]
    rw [show Nat.ofDigits 58 (List.replicate 33 (0 : Nat)).reverse = 0 from by decide,
      show leadingZeroCount (List.replicate 33 (0 : Nat)) = 33 from by decide,
      Nat.digits_zero]
    simp
  refine ⟨by rw [h1]; decide, by decide, ?_⟩
  simp only [Fr.unwrap]
  rw [h1]
  decide

/-- C9 (amended): `Fr`'s `Compact::unwrap` fails with the length error for every base58
string whose decoded byte sequence has fewer than 32 bytes; for 32 or more decoded
bytes it keeps the first 32 (so longer inputs are not rejected for their length). -/
theorem c9_amended_short_decode_fails (ds : List Nat)
    (h : (bs58_decode ds).length < 32) :
    Fr.unwrap ds = .error CompactError.tooShort := by
  simp only [Fr.unwrap]
  rw [if_neg (by omega)]

/-- Witness for C9 (amended) on the empty string, which decodes to zero bytes. -/
theorem c9_amended_short_decode_fails_witness :
    Fr.unwrap [] = .error CompactError.tooShort :=
  c9_amended_short_decode_fails []
    (by simp [bs58_decode, leadingZeroCount, Nat.ofDigits_nil])
